import Mathlib
namespace DronePortainer

/-- JavaScript `String.prototype.split` on a single-character separator,
on the character list of a string: `"" → [""]`, no separator → whole
string, trailing separator → trailing empty piece. -/
def splitCharAux (sep : Char) : List Char → List Char → List (List Char)
  | [], acc => [acc.reverse]
  | c :: rest, acc =>
    if c = sep then acc.reverse :: splitCharAux sep rest []
    else splitCharAux sep rest (c :: acc)

/-- JavaScript `s.split(sep)` for a one-character separator. -/
def jsSplit (s : String) (sep : Char) : List String :=
  (splitCharAux sep s.data []).map (fun l => ⟨l⟩)

/-- JavaScript `s.substring(0, n)`: the first `n` characters (the whole
string when it is shorter). -/
def jsSubstr0 (s : String) (n : Nat) : String :=
  ⟨s.data.take n⟩

/-- JavaScript truthiness of `process.env.X ?? false` as used for the
`PLUGIN_STANDALONE` and `PLUGIN_FORCE_PULL` options: an unset variable
gives `false`, a set one is truthy exactly when non-empty. -/
def envTruthy : Option String → Bool
  | none => false
  | some s => s != ""

/-- `const registry = imageName.split("/")[0]` — the leading path segment
of an image name. -/
def imageHost (imageName : String) : String :=
  (jsSplit imageName '/').headD ""

/-- `const releaseTag = branchName + "-" + commitHash.substring(0, 8)`. -/
def mkReleaseTag (branch hash : String) : String :=
  branch ++ "-" ++ jsSubstr0 hash 8

/-- `let urlPrefix = branchName == "main" ? "" : branchName + "."`. -/
def mkUrlPrefix (branch : String) : String :=
  if branch == "main" then "" else branch ++ "."

/-- One `{ name, value }` entry of the compose environment array. -/
structure EnvPair where
  name : String
  value : String
  deriving Repr, DecidableEq

/-- The `composeEnvArray` built before the create/update branch: the three
mandatory entries followed by the additional entries pushed in source
iteration order (`Object.keys(additionalComposeEnv).forEach(push)`). -/
def mkComposeEnvArray (releaseTag urlPrefix stackName : String)
    (additional : List (String × String)) : List EnvPair :=
  [⟨"RELEASE_TAG", releaseTag⟩, ⟨"URL_PREFIX", urlPrefix⟩,
   ⟨"STACK_NAME", stackName⟩]
  ++ additional.map (fun p => ⟨p.1, p.2⟩)

/-- An endpoint entry of the `/endpoints` response body. -/
structure Endpoint where
  Id : Nat
  Name : String
  deriving Repr, DecidableEq

/-- A registry entry of the `/registries` response body. -/
structure Registry where
  Id : Nat
  URL : String
  deriving Repr, DecidableEq

/-- A stack entry of the `/stacks` response body. -/
structure Stack where
  Id : Nat
  Name : String
  deriving Repr, DecidableEq

/-- Body of the stack-create request (`stackCreateOptions`).  `SwarmID` is
`none` when the field is absent (standalone mode) and `some` when the
clustered branch spreads `{ SwarmID: swarmId }` into the options. -/
structure StackCreateBody where
  Name : String
  StackFileContent : String
  Env : List EnvPair
  Prune : Bool
  SwarmID : Option String
  deriving Repr, DecidableEq

/-- Body of the stack-update request. -/
structure StackUpdateBody where
  id : Nat
  StackFileContent : String
  Env : List EnvPair
  Prune : Bool
  PullImage : Bool
  deriving Repr, DecidableEq

/-- One outbound request of a run, in the order the program issues them.
For `pullImage`, `auth` is the registry id carried by the
`X-Registry-Auth` header (the source serialises `{ registryId }` as
base64-encoded JSON); `none` means no such header is attached.  For
`getStacks`, `filter` is the `SwarmID` filter parameter (`none` when the
listing is unfiltered). -/
inductive Req where
  | auth (username password : String)
  | getEndpoints
  | getRegistries
  | pullImage (endpointId : Nat) (fromImage tag : String) (auth : Option Nat)
  | getSwarm (endpointId : Nat)
  | getStacks (filter : Option String)
  | createStack (opType endpointId : Nat) (body : StackCreateBody)
  | updateStack (stackId endpointId : Nat) (body : StackUpdateBody)
  deriving Repr, DecidableEq

/-- The process configuration read from the environment.  `commitHash`,
`images`, `standalone` and `forcePull` keep their raw optional nature
(`none` = the variable is unset); the additional compose environment is
the parsed JSON object as an ordered association list (JavaScript objects
iterate string keys in insertion order). -/
structure Config where
  branch : String
  commitHash : Option String
  portainerUsername : String
  portainerPassword : String
  images : Option String
  stackName : String
  endpointName : String
  additionalComposeEnv : List (String × String)
  standalone : Option String
  forcePull : Option String

/-- The prepared behaviour of the remote control plane and the local file
system for one run: a status and body for each kind of request the
program can issue, plus whether the compose file is readable and its
contents. -/
structure World where
  authStatus : Nat
  endpointsStatus : Nat
  endpointsList : List Endpoint
  registriesStatus : Nat
  registriesList : List Registry
  pullStatus : String → Nat
  swarmStatus : Nat
  swarmId : String
  stacksStatus : Nat
  stacksList : List Stack
  composeFileOk : Bool
  composeFileContent : String
  createStatus : Nat
  updateStatus : Nat

/-- Outcome of a run: the ordered request trace and the process exit
code (0 on success, 1 on any fatal condition). -/
structure RunResult where
  trace : List Req
  exit : Nat
  deriving Repr, DecidableEq

/-- Whether a stage result is a success (`Except.ok`). -/
def stageOk : Except Unit α → Bool
  | .ok _ => true
  | .error _ => false

/-- `getRegistries`: return the cached registry list when present;
otherwise fetch `/registries`, fail fatally on a non-200 status, and
populate the cache.  Returns the emitted requests together with the list
and the new cache. -/
def getRegistries (w : World) (cache : Option (List Registry)) :
    List Req × Except Unit (List Registry × Option (List Registry)) :=
  match cache with
  | some regs => ([], .ok (regs, some regs))
  | none =>
    ([Req.getRegistries],
      if w.registriesStatus = 200 then
        .ok (w.registriesList, some w.registriesList)
      else .error ())

/-- `getRegistryAuth(registryUrl)`: resolve the registry list (through the
cache), scan it for an exact URL match, and fail fatally when the host is
not registered.  The returned `Nat` is the registry id that the source
serialises into the base64 `X-Registry-Auth` blob `{ registryId }`. -/
def getRegistryAuth (w : World) (cache : Option (List Registry))
    (registryUrl : String) :
    List Req × Except Unit (Nat × Option (List Registry)) :=
  match getRegistries w cache with
  | (reqs, .error _) => (reqs, .error ())
  | (reqs, .ok (regs, cache2)) =>
    match regs.find? (fun reg => reg.URL == registryUrl) with
    | none => (reqs, .error ())
    | some reg => (reqs, .ok (reg.Id, cache2))

/-- The body of one image-pull callback: derive the registry host as the
segment before the first `/`, resolve its credential unless the host is
`docker.io`, issue the pull with the header attached only when resolved,
and fail fatally on a non-200 pull status. -/
def pullOne (w : World) (epId : Nat) (tag : String)
    (cache : Option (List Registry)) (imageName : String) :
    List Req × Except Unit (Option (List Registry)) :=
  if imageHost imageName != "docker.io" then
    match getRegistryAuth w cache (imageHost imageName) with
    | (reqs, .error _) => (reqs, .error ())
    | (reqs, .ok (regId, cache2)) =>
      (reqs ++ [Req.pullImage epId imageName tag (some regId)],
        if w.pullStatus imageName = 200 then .ok cache2 else .error ())
  else
    ([Req.pullImage epId imageName tag none],
      if w.pullStatus imageName = 200 then .ok cache else .error ())

/-- The `Promise.all(images.split(",").map(...))` pull loop,
sequentialised in source order, threading the registry cache and stopping
at the first fatal failure. -/
def pullImages (w : World) (epId : Nat) (tag : String)
    (cache : Option (List Registry)) :
    List String → List Req × Except Unit (Option (List Registry))
  | [] => ([], .ok cache)
  | img :: rest =>
    match pullOne w epId tag cache img with
    | (reqs, .error _) => (reqs, .error ())
    | (reqs, .ok cache2) =>
      match pullImages w epId tag cache2 rest with
      | (reqs2, r) => (reqs ++ reqs2, r)

/-- The guarded pull stage: `if (images && images != "")` — an unset or
empty image list skips the stage entirely. -/
def pullStage (cfg : Config) (w : World) (epId : Nat) (tag : String) :
    List Req × Except Unit (Option (List Registry)) :=
  let images := cfg.images.getD ""
  if images != "" then pullImages w epId tag none (jsSplit images ',')
  else ([], .ok none)

/-- The swarm-resolution stage: skipped when the standalone option is
truthy (leaving the stack listing unfiltered); otherwise fetch the swarm
id, failing fatally on a non-200 status, and produce the `SwarmID` filter
for the stack listing. -/
def swarmStage (cfg : Config) (w : World) (epId : Nat) :
    List Req × Except Unit (String × Option String) :=
  if envTruthy cfg.standalone then ([], .ok ("", none))
  else
    ([Req.getSwarm epId],
      if w.swarmStatus = 200 then .ok (w.swarmId, some w.swarmId)
      else .error ())

/-- One whole run of the plugin, mirroring the async main function of
`src/index.ts`:

1. fail fatally, before any remote call, when the commit hash is unset or
   empty; otherwise compute the release tag;
2. authenticate (`/auth`), fatal on non-200;
3. fetch `/endpoints`.  NOTE: the source then re-tests `response.status`
   — the status of the *auth* response, which is already known to be 200
   — instead of `endpointsReponse.status`, so a non-200 endpoints status
   never halts the run; the embedding faithfully performs no check on
   `w.endpointsStatus`.  Then scan for the endpoint by name, fatal when
   absent;
4. the guarded image-pull stage;
5. the swarm stage when not standalone;
6. list `/stacks` (optionally filtered), fatal on non-200; read the
   compose file, fatal when unreadable; build `composeEnvArray`;
7. create the stack when no listed stack has the configured name
   (operation type 2 standalone / 1 clustered, the latter adding
   `SwarmID`), else update the found stack by its id with
   `PullImage: !!forcePull`; either response is checked for 200. -/
def run (cfg : Config) (w : World) : RunResult :=
  match cfg.commitHash with
  | none => ⟨[], 1⟩
  | some h =>
    if h = "" then ⟨[], 1⟩
    else
      let releaseTag := mkReleaseTag cfg.branch h
      let authReq := Req.auth cfg.portainerUsername cfg.portainerPassword
      if w.authStatus ≠ 200 then ⟨[authReq], 1⟩
      else
        match w.endpointsList.find? (fun e => e.Name == cfg.endpointName) with
        | none => ⟨[authReq, Req.getEndpoints], 1⟩
        | some ep =>
          match pullStage cfg w ep.Id releaseTag with
          | (pullTr, .error _) => ⟨[authReq, Req.getEndpoints] ++ pullTr, 1⟩
          | (pullTr, .ok _) =>
            match swarmStage cfg w ep.Id with
            | (swTr, .error _) =>
              ⟨[authReq, Req.getEndpoints] ++ pullTr ++ swTr, 1⟩
            | (swTr, .ok (swarmId, filter)) =>
              let tr0 := [authReq, Req.getEndpoints] ++ pullTr ++ swTr
                ++ [Req.getStacks filter]
              if w.stacksStatus ≠ 200 then ⟨tr0, 1⟩
              else if w.composeFileOk = false then ⟨tr0, 1⟩
              else
                let env := mkComposeEnvArray releaseTag
                  (mkUrlPrefix cfg.branch) cfg.stackName
                  cfg.additionalComposeEnv
                match w.stacksList.find? (fun s => s.Name == cfg.stackName) with
                | none =>
                  let standal := envTruthy cfg.standalone
                  let body : StackCreateBody :=
                    ⟨cfg.stackName, w.composeFileContent, env, true,
                      if standal then none else some swarmId⟩
                  ⟨tr0 ++ [Req.createStack (if standal then 2 else 1) ep.Id body],
                    if w.createStatus ≠ 200 then 1 else 0⟩
                | some stk =>
                  let body : StackUpdateBody :=
                    ⟨stk.Id, w.composeFileContent, env, true,
                      envTruthy cfg.forcePull⟩
                  ⟨tr0 ++ [Req.updateStack stk.Id ep.Id body],
                    if w.updateStatus ≠ 200 then 1 else 0⟩

def isCreateReq : Req → Bool
  | .createStack _ _ _ => true
  | _ => false

def isUpdateReq : Req → Bool
  | .updateStack _ _ _ => true
  | _ => false

def isPullReq : Req → Bool
  | .pullImage _ _ _ _ => true
  | _ => false

def isRegistriesReq : Req → Bool
  | .getRegistries => true
  | _ => false

def isSwarmReq : Req → Bool
  | .getSwarm _ => true
  | _ => false

def countReq (p : Req → Bool) (l : List Req) : Nat :=
  (l.filter p).length

def cacheInv (w : World) (cache : Option (List Registry)) : Prop :=
  cache = none ∨ cache = some w.registriesList

/-- The per-image C5 payload: what a pull request in the trace tells us
about its auth header. -/
def pullReqSpec (w : World) (epId : Nat) (tag : String) (req : Req) : Prop :=
  req = Req.getRegistries ∨
  ∃ img auth, req = Req.pullImage epId img tag auth ∧
    (auth.isSome = true ↔ imageHost img ≠ "docker.io") ∧
    (∀ i, auth = some i →
      ∃ reg, reg ∈ w.registriesList ∧ reg.URL = imageHost img ∧ reg.Id = i)

/-- Remaining "budget" of remote registry-list fetches: one while the
cache is unpopulated, zero afterwards. -/
def cacheFuel : Option (List Registry) → Nat
  | some _ => 0
  | none => 1

/-- The compose environment a run with commit hash `h` sends in its stack
bodies. -/
def runEnv (cfg : Config) (h : String) : List EnvPair :=
  mkComposeEnvArray (mkReleaseTag cfg.branch h) (mkUrlPrefix cfg.branch)
    cfg.stackName cfg.additionalComposeEnv

/-- Everything a single request in a run trace can be, together with the
facts the control flow guarantees about it. -/
def runReqSpec (cfg : Config) (w : World) (h : String) (req : Req) : Prop :=
  req = Req.auth cfg.portainerUsername cfg.portainerPassword ∨
  req = Req.getEndpoints ∨
  (∃ ep, w.endpointsList.find? (fun e => e.Name == cfg.endpointName) = some ep ∧
    pullReqSpec w ep.Id (mkReleaseTag cfg.branch h) req) ∨
  (∃ ep, w.endpointsList.find? (fun e => e.Name == cfg.endpointName) = some ep ∧
    req = Req.getSwarm ep.Id ∧ envTruthy cfg.standalone = false) ∨
  req = Req.getStacks
    (if envTruthy cfg.standalone then none else some w.swarmId) ∨
  (∃ ep, w.endpointsList.find? (fun e => e.Name == cfg.endpointName) = some ep ∧
    w.stacksList.find? (fun s => s.Name == cfg.stackName) = none ∧
    req = Req.createStack (if envTruthy cfg.standalone then 2 else 1) ep.Id
      ⟨cfg.stackName, w.composeFileContent, runEnv cfg h, true,
        if envTruthy cfg.standalone then none else some w.swarmId⟩) ∨
  (∃ ep stk,
    w.endpointsList.find? (fun e => e.Name == cfg.endpointName) = some ep ∧
    w.stacksList.find? (fun s => s.Name == cfg.stackName) = some stk ∧
    req = Req.updateStack stk.Id ep.Id
      ⟨stk.Id, w.composeFileContent, runEnv cfg h, true,
        envTruthy cfg.forcePull⟩)

/-- The requests issued synchronously when the pull callbacks are
launched: `images.split(",").map(async ...)` runs every callback in array
order up to its first `await` within one tick, before any network
response can arrive.  A callback whose host is not `docker.io` finds the
module-level `registries` cache still in its initial state (no assignment
can have happened yet) and issues its own registry-list fetch; a
`docker.io` callback reaches its pull request directly. -/
def pullLaunchReqs (cache : Option (List Registry)) (epId : Nat)
    (tag : String) : List String → List Req
  | [] => []
  | img :: rest =>
    (if imageHost img != "docker.io" then
      (match cache with
        | some _ => []
        | none => [Req.getRegistries])
    else [Req.pullImage epId img tag none])
    ++ pullLaunchReqs cache epId tag rest

/-- Concrete run: standalone mode (option set to the string `"false"`),
force-pull `"false"`, two images (one private registry, one docker.io),
additional compose environment `{"A":"1","B":"2"}`, and a stack list
already containing the configured stack, so the update path runs. -/
def cfgU : Config :=
  { branch := "dev", commitHash := some "0123456789abcdef",
    portainerUsername := "u", portainerPassword := "p",
    images := some "registry.example.com/svc,docker.io/app",
    stackName := "web", endpointName := "prod",
    additionalComposeEnv := [("A", "1"), ("B", "2")],
    standalone := some "false", forcePull := some "false" }

/-- Remote behaviour for `cfgU`: every stage succeeds and the stack list
contains `{Id:7, Name:"web"}`. -/
def wU : World :=
  { authStatus := 200, endpointsStatus := 200,
    endpointsList := [⟨1, "prod"⟩],
    registriesStatus := 200, registriesList := [⟨5, "registry.example.com"⟩],
    pullStatus := fun _ => 200,
    swarmStatus := 200, swarmId := "sw1",
    stacksStatus := 200, stacksList := [⟨7, "web"⟩],
    composeFileOk := true, composeFileContent := "services:",
    createStatus := 200, updateStatus := 200 }

/-- The stack-update body the run on `cfgU`/`wU` sends. -/
def wUBody : StackUpdateBody :=
  ⟨7, "services:",
    [⟨"RELEASE_TAG", "dev-01234567"⟩, ⟨"URL_PREFIX", "dev."⟩,
      ⟨"STACK_NAME", "web"⟩, ⟨"A", "1"⟩, ⟨"B", "2"⟩],
    true, true⟩

/-- Concrete run: clustered mode (standalone unset), no images, branch
`"main"`, empty stack list, so the create path runs. -/
def cfgC : Config :=
  { branch := "main", commitHash := some "fedcba9876543210",
    portainerUsername := "u2", portainerPassword := "p2",
    images := none,
    stackName := "api", endpointName := "prod",
    additionalComposeEnv := [],
    standalone := none, forcePull := none }

/-- Remote behaviour for `cfgC`: every stage succeeds, swarm id `"sw1"`,
no stacks yet. -/
def wC : World :=
  { authStatus := 200, endpointsStatus := 200,
    endpointsList := [⟨1, "prod"⟩],
    registriesStatus := 200, registriesList := [],
    pullStatus := fun _ => 200,
    swarmStatus := 200, swarmId := "sw1",
    stacksStatus := 200, stacksList := [],
    composeFileOk := true, composeFileContent := "x:",
    createStatus := 200, updateStatus := 200 }

/-- Concrete run exhibiting the endpoints status-check slip: standalone
mode with one private-registry image. -/
def cfgB : Config :=
  { branch := "main", commitHash := some "fedcba9876543210",
    portainerUsername := "u2", portainerPassword := "p2",
    images := some "registry.example.com/svc",
    stackName := "api", endpointName := "prod",
    additionalComposeEnv := [],
    standalone := some "1", forcePull := none }

/-- Remote behaviour for `cfgB`: the endpoints fetch answers with status
500 (its body still lists the endpoint), every other stage succeeds. -/
def wB : World :=
  { authStatus := 200, endpointsStatus := 500,
    endpointsList := [⟨1, "prod"⟩],
    registriesStatus := 200, registriesList := [⟨5, "registry.example.com"⟩],
    pullStatus := fun _ => 200,
    swarmStatus := 200, swarmId := "sw1",
    stacksStatus := 200, stacksList := [],
    composeFileOk := true, composeFileContent := "x:",
    createStatus := 200, updateStatus := 200 }

theorem countReq_append (p : Req → Bool) (l1 l2 : List Req) :
    countReq p (l1 ++ l2) = countReq p l1 + countReq p l2 := by
  simp [countReq, List.filter_append]

theorem countReq_eq_zero {p : Req → Bool} {l : List Req}
    (h : ∀ a ∈ l, p a = false) : countReq p l = 0 := by
  simp only [countReq, List.length_eq_zero, List.filter_eq_nil_iff]
  intro a ha
  simp [h a ha]

theorem getRegistries_spec (w : World) (cache : Option (List Registry))
    (hinv : cacheInv w cache) :
    (∀ r ∈ (getRegistries w cache).1, r = Req.getRegistries) ∧
    (∀ regs cache2, (getRegistries w cache).2 = .ok (regs, cache2) →
      regs = w.registriesList ∧ cache2 = some w.registriesList) := by
  rcases hinv with h | h <;> subst h
  · refine ⟨by simp [getRegistries], ?_⟩
    intro regs cache2 hok
    simp only [getRegistries] at hok
    split at hok
    · cases hok
      exact ⟨rfl, rfl⟩
    · cases hok
  · refine ⟨by simp [getRegistries], ?_⟩
    intro regs cache2 hok
    simp only [getRegistries] at hok
    cases hok
    exact ⟨rfl, rfl⟩

theorem getRegistryAuth_spec (w : World) (cache : Option (List Registry))
    (url : String) (hinv : cacheInv w cache) :
    (∀ r ∈ (getRegistryAuth w cache url).1, r = Req.getRegistries) ∧
    (∀ i cache2, (getRegistryAuth w cache url).2 = .ok (i, cache2) →
      cache2 = some w.registriesList ∧
      ∃ reg, reg ∈ w.registriesList ∧ reg.URL = url ∧ reg.Id = i) := by
  obtain ⟨htr, hok⟩ := getRegistries_spec w cache hinv
  rcases hg : getRegistries w cache with ⟨reqs, res⟩
  rw [hg] at htr hok
  cases res with
  | error e =>
    simp only [getRegistryAuth, hg]
    exact ⟨htr, by intro i cache2 hc; cases hc⟩
  | ok v =>
    rcases v with ⟨regs, cache2⟩
    obtain ⟨hregs, hc2⟩ := hok regs cache2 rfl
    subst hregs
    subst hc2
    simp only [getRegistryAuth, hg]
    cases hf : w.registriesList.find? (fun reg => reg.URL == url) with
    | none =>
      simp only [hf]
      exact ⟨htr, by intro i c hc; cases hc⟩
    | some reg =>
      simp only [hf]
      refine ⟨htr, ?_⟩
      intro i c hc
      cases hc
      refine ⟨rfl, reg, List.mem_of_find?_eq_some hf, ?_, rfl⟩
      have := List.find?_some hf
      simpa using this

theorem pullOne_spec (w : World) (epId : Nat) (tag : String)
    (cache : Option (List Registry)) (img : String)
    (hinv : cacheInv w cache) :
    (∀ req ∈ (pullOne w epId tag cache img).1, pullReqSpec w epId tag req) ∧
    (∀ cache2, (pullOne w epId tag cache img).2 = .ok cache2 →
      cacheInv w cache2) := by
  obtain ⟨htr, hok⟩ := getRegistryAuth_spec w cache (imageHost img) hinv
  simp only [pullOne]
  by_cases hho : imageHost img = "docker.io"
  · simp only [hho, bne_self_eq_false, Bool.false_eq_true, if_false]
    constructor
    · intro req hreq
      simp only [List.mem_singleton] at hreq
      subst hreq
      refine Or.inr ⟨img, none, rfl, ?_, by intro i hi; cases hi⟩
      simp [hho]
    · intro cache2 hc2
      by_cases hs : w.pullStatus img = 200
      · rw [if_pos hs] at hc2
        cases hc2
        exact hinv
      · rw [if_neg hs] at hc2
        cases hc2
  · have hbne : (imageHost img != "docker.io") = true := by
      simp [bne_iff_ne, hho]
    simp only [hbne, if_true]
    rcases hg : getRegistryAuth w cache (imageHost img) with ⟨reqs, res⟩
    rw [hg] at htr hok
    cases res with
    | error e =>
      simp only [hg]
      exact ⟨fun req hreq => Or.inl (htr req hreq), by intro c hc; cases hc⟩
    | ok v =>
      rcases v with ⟨regId, cache2⟩
      obtain ⟨hc2, reg, hmem, hurl, hid⟩ := hok regId cache2 rfl
      simp only [hg]
      constructor
      · intro req hreq
        simp only [List.mem_append, List.mem_singleton] at hreq
        rcases hreq with hreq | hreq
        · exact Or.inl (htr req hreq)
        · subst hreq
          refine Or.inr ⟨img, some regId, rfl, by simp [hho], ?_⟩
          intro i hi
          cases hi
          exact ⟨reg, hmem, hurl, hid⟩
      · intro c hc
        by_cases hs : w.pullStatus img = 200
        · rw [if_pos hs] at hc
          cases hc
          exact Or.inr hc2
        · rw [if_neg hs] at hc
          cases hc

theorem pullImages_spec (w : World) (epId : Nat) (tag : String) :
    ∀ (imgs : List String) (cache : Option (List Registry)),
      cacheInv w cache →
      (∀ req ∈ (pullImages w epId tag cache imgs).1,
        pullReqSpec w epId tag req) := by
  intro imgs
  induction imgs with
  | nil => intro cache hinv req hreq; simp [pullImages] at hreq
  | cons img rest ih =>
    intro cache hinv req hreq
    obtain ⟨h1, h2⟩ := pullOne_spec w epId tag cache img hinv
    simp only [pullImages] at hreq
    rcases hp : pullOne w epId tag cache img with ⟨reqs, res⟩
    rw [hp] at hreq h1 h2
    cases res with
    | error e =>
      simp only at hreq
      exact h1 req hreq
    | ok cache2 =>
      simp only at hreq
      rcases hr : pullImages w epId tag cache2 rest with ⟨reqs2, res2⟩
      rw [hr] at hreq
      simp only [List.mem_append] at hreq
      rcases hreq with hreq | hreq
      · exact h1 req hreq
      · have := ih cache2 (h2 cache2 rfl) req
        rw [hr] at this
        exact this hreq

theorem pullStage_spec (cfg : Config) (w : World) (epId : Nat) (tag : String) :
    ∀ req ∈ (pullStage cfg w epId tag).1, pullReqSpec w epId tag req := by
  intro req hreq
  simp only [pullStage] at hreq
  split at hreq
  · exact pullImages_spec w epId tag _ none (Or.inl rfl) req hreq
  · simp at hreq

theorem swarmStage_mem (cfg : Config) (w : World) (epId : Nat) :
    ∀ req ∈ (swarmStage cfg w epId).1,
      req = Req.getSwarm epId ∧ envTruthy cfg.standalone = false := by
  intro req hreq
  simp only [swarmStage] at hreq
  split at hreq
  · simp at hreq
  · simp only [List.mem_singleton] at hreq
    next hst =>
      exact ⟨hreq, by simpa using hst⟩

theorem swarmStage_ok (cfg : Config) (w : World) (epId : Nat)
    (str : List Req) (swid : String) (filt : Option String)
    (h : swarmStage cfg w epId = (str, .ok (swid, filt))) :
    (envTruthy cfg.standalone = true ∧ str = [] ∧ swid = "" ∧ filt = none) ∨
    (envTruthy cfg.standalone = false ∧ str = [Req.getSwarm epId] ∧
      w.swarmStatus = 200 ∧ swid = w.swarmId ∧ filt = some w.swarmId) := by
  simp only [swarmStage] at h
  split at h
  · next hst =>
      cases h
      exact Or.inl ⟨hst, rfl, rfl, rfl⟩
  · next hst =>
      by_cases hs : w.swarmStatus = 200
      · rw [if_pos hs] at h
        cases h
        exact Or.inr ⟨by simpa using hst, rfl, hs, rfl, rfl⟩
      · rw [if_neg hs] at h
        cases h

theorem getRegistries_count (w : World) (cache : Option (List Registry)) :
    (countReq isRegistriesReq (getRegistries w cache).1 ≤ cacheFuel cache) ∧
    (∀ regs cache2, (getRegistries w cache).2 = .ok (regs, cache2) →
      countReq isRegistriesReq (getRegistries w cache).1 + cacheFuel cache2
        ≤ cacheFuel cache) := by
  cases cache with
  | some regs0 =>
    refine ⟨by simp [getRegistries, countReq], ?_⟩
    intro regs cache2 hok
    simp only [getRegistries] at hok ⊢
    cases hok
    simp [countReq, cacheFuel]
  | none =>
    refine ⟨by simp [getRegistries, countReq, isRegistriesReq, cacheFuel], ?_⟩
    intro regs cache2 hok
    simp only [getRegistries] at hok ⊢
    split at hok
    · cases hok
      simp [countReq, isRegistriesReq, cacheFuel]
    · cases hok

theorem getRegistryAuth_count (w : World) (cache : Option (List Registry))
    (url : String) :
    (countReq isRegistriesReq (getRegistryAuth w cache url).1 ≤ cacheFuel cache) ∧
    (∀ i cache2, (getRegistryAuth w cache url).2 = .ok (i, cache2) →
      countReq isRegistriesReq (getRegistryAuth w cache url).1 + cacheFuel cache2
        ≤ cacheFuel cache) := by
  obtain ⟨hle, hok⟩ := getRegistries_count w cache
  rcases hg : getRegistries w cache with ⟨reqs, res⟩
  rw [hg] at hle hok
  cases res with
  | error e =>
    simp only [getRegistryAuth, hg]
    exact ⟨hle, by intro i c hc; cases hc⟩
  | ok v =>
    rcases v with ⟨regs, cache2⟩
    have hcnt := hok regs cache2 rfl
    simp only [getRegistryAuth, hg]
    cases hf : regs.find? (fun reg => reg.URL == url) with
    | none =>
      simp only [hf]
      exact ⟨hle, by intro i c hc; cases hc⟩
    | some reg =>
      simp only [hf]
      refine ⟨hle, ?_⟩
      intro i c hc
      cases hc
      exact hcnt

theorem pullOne_count (w : World) (epId : Nat) (tag : String)
    (cache : Option (List Registry)) (img : String) :
    (countReq isRegistriesReq (pullOne w epId tag cache img).1 ≤ cacheFuel cache) ∧
    (∀ cache2, (pullOne w epId tag cache img).2 = .ok cache2 →
      countReq isRegistriesReq (pullOne w epId tag cache img).1 + cacheFuel cache2
        ≤ cacheFuel cache) := by
  obtain ⟨hle, hok⟩ := getRegistryAuth_count w cache (imageHost img)
  simp only [pullOne]
  by_cases hho : imageHost img = "docker.io"
  · simp only [hho, bne_self_eq_false, Bool.false_eq_true, if_false]
    refine ⟨by simp [countReq, isRegistriesReq], ?_⟩
    intro cache2 hc2
    by_cases hs : w.pullStatus img = 200
    · rw [if_pos hs] at hc2
      cases hc2
      simp [countReq, isRegistriesReq]
    · rw [if_neg hs] at hc2
      cases hc2
  · have hbne : (imageHost img != "docker.io") = true := by
      simp [bne_iff_ne, hho]
    simp only [hbne, if_true]
    rcases hg : getRegistryAuth w cache (imageHost img) with ⟨reqs, res⟩
    rw [hg] at hle hok
    cases res with
    | error e =>
      simp only [hg]
      exact ⟨hle, by intro c hc; cases hc⟩
    | ok v =>
      rcases v with ⟨regId, cache2⟩
      have hcnt := hok regId cache2 rfl
      simp only [hg]
      have hpull : countReq isRegistriesReq
          (reqs ++ [Req.pullImage epId img tag (some regId)])
            = countReq isRegistriesReq reqs := by
        simp [countReq_append, countReq, isRegistriesReq]
      constructor
      · rw [hpull]
        exact le_trans (Nat.le_add_right _ _) hcnt
      · intro c hc
        by_cases hs : w.pullStatus img = 200
        · rw [if_pos hs] at hc
          cases hc
          rw [hpull]
          exact hcnt
        · rw [if_neg hs] at hc
          cases hc

theorem pullImages_count (w : World) (epId : Nat) (tag : String) :
    ∀ (imgs : List String) (cache : Option (List Registry)),
    (countReq isRegistriesReq (pullImages w epId tag cache imgs).1
       ≤ cacheFuel cache) ∧
    (∀ cache2, (pullImages w epId tag cache imgs).2 = .ok cache2 →
      countReq isRegistriesReq (pullImages w epId tag cache imgs).1
          + cacheFuel cache2
        ≤ cacheFuel cache) := by
  intro imgs
  induction imgs with
  | nil =>
    intro cache
    refine ⟨by simp [pullImages, countReq], ?_⟩
    intro cache2 hc
    simp only [pullImages] at hc ⊢
    cases hc
    simp [countReq]
  | cons img rest ih =>
    intro cache
    obtain ⟨h1le, h1ok⟩ := pullOne_count w epId tag cache img
    simp only [pullImages]
    rcases hp : pullOne w epId tag cache img with ⟨reqs, res⟩
    rw [hp] at h1le h1ok
    cases res with
    | error e =>
      simp only [hp]
      exact ⟨h1le, by intro c hc; cases hc⟩
    | ok cache2 =>
      have h1 := h1ok cache2 rfl
      obtain ⟨h2le, h2ok⟩ := ih cache2
      simp only [hp]
      rcases hr : pullImages w epId tag cache2 rest with ⟨reqs2, res2⟩
      rw [hr] at h2le h2ok
      simp only [countReq_append]
      constructor
      · calc countReq isRegistriesReq reqs + countReq isRegistriesReq reqs2
            ≤ countReq isRegistriesReq reqs + cacheFuel cache2 :=
              Nat.add_le_add_left h2le _
          _ ≤ cacheFuel cache := h1
      · intro c hc
        have h2 := h2ok c hc
        calc countReq isRegistriesReq reqs + countReq isRegistriesReq reqs2
              + cacheFuel c
            = countReq isRegistriesReq reqs
              + (countReq isRegistriesReq reqs2 + cacheFuel c) := by omega
          _ ≤ countReq isRegistriesReq reqs + cacheFuel cache2 :=
              Nat.add_le_add_left h2 _
          _ ≤ cacheFuel cache := h1

theorem pullStage_count (cfg : Config) (w : World) (epId : Nat) (tag : String) :
    countReq isRegistriesReq (pullStage cfg w epId tag).1 ≤ 1 := by
  simp only [pullStage]
  split
  · exact le_trans (pullImages_count w epId tag _ none).1 (by simp [cacheFuel])
  · simp [countReq]

theorem run_mem_spec (cfg : Config) (w : World) (req : Req)
    (hmem : req ∈ (run cfg w).trace) :
    ∃ h, cfg.commitHash = some h ∧ h ≠ "" ∧ runReqSpec cfg w h req := by
  unfold run at hmem
  rcases hch : cfg.commitHash with _ | h
  · simp only [hch] at hmem
    simp at hmem
  · simp only [hch] at hmem
    by_cases hh : h = ""
    · simp only [hh, if_pos rfl] at hmem
      simp at hmem
    · simp only [if_neg hh] at hmem
      refine ⟨h, rfl, hh, ?_⟩
      by_cases ha : w.authStatus = 200
      case neg =>
        rw [if_pos (show w.authStatus ≠ 200 from ha)] at hmem
        simp only [List.mem_singleton] at hmem
        exact Or.inl hmem
      case pos =>
        rw [if_neg (show ¬w.authStatus ≠ 200 by simpa using ha)] at hmem
        rcases hep : w.endpointsList.find? (fun e => e.Name == cfg.endpointName)
          with _ | ep
        · simp only [hep] at hmem
          simp only [List.mem_cons, List.mem_singleton, List.not_mem_nil,
            or_false] at hmem
          rcases hmem with hmem | hmem
          · exact Or.inl hmem
          · exact Or.inr (Or.inl hmem)
        · simp only [hep] at hmem
          have hpmem := pullStage_spec cfg w ep.Id (mkReleaseTag cfg.branch h)
          rcases hps : pullStage cfg w ep.Id (mkReleaseTag cfg.branch h)
            with ⟨pullTr, pres⟩
          rw [hps] at hpmem
          simp only [hps] at hmem
          cases pres with
          | error e =>
            simp only [List.mem_append, List.mem_cons, List.mem_singleton,
              List.not_mem_nil, or_false] at hmem
            rcases hmem with (hmem | hmem) | hmem
            · exact Or.inl hmem
            · exact Or.inr (Or.inl hmem)
            · exact Or.inr (Or.inr (Or.inl ⟨ep, hep, hpmem req hmem⟩))
          | ok cache =>
            have hsmem := swarmStage_mem cfg w ep.Id
            rcases hss : swarmStage cfg w ep.Id with ⟨swTr, sres⟩
            rw [hss] at hsmem
            simp only [hss] at hmem
            cases sres with
            | error e =>
              simp only [List.mem_append, List.mem_cons, List.mem_singleton,
                List.not_mem_nil, or_false] at hmem
              rcases hmem with ((hmem | hmem) | hmem) | hmem
              · exact Or.inl hmem
              · exact Or.inr (Or.inl hmem)
              · exact Or.inr (Or.inr (Or.inl ⟨ep, hep, hpmem req hmem⟩))
              · obtain ⟨hsw, hst⟩ := hsmem req hmem
                exact Or.inr (Or.inr (Or.inr (Or.inl ⟨ep, hep, hsw, hst⟩)))
            | ok v =>
              rcases v with ⟨swid, filt⟩
              simp only [] at hmem
              have hsok := swarmStage_ok cfg w ep.Id swTr swid filt hss
              have hfilt : filt =
                  (if envTruthy cfg.standalone then none else some w.swarmId) := by
                rcases hsok with ⟨hs1, _, _, hs4⟩ | ⟨hs1, _, _, _, hs5⟩
                · rw [hs1, if_pos rfl] at *
                  exact hs4
                · rw [hs1] at *
                  simp only [Bool.false_eq_true, if_false]
                  exact hs5
              have hswid : envTruthy cfg.standalone = false → swid = w.swarmId := by
                rcases hsok with ⟨hs1, _, _, _⟩ | ⟨_, _, _, hs4, _⟩
                · intro hc; rw [hs1] at hc; cases hc
                · intro _; exact hs4
              by_cases hstk : w.stacksStatus = 200
              case neg =>
                rw [if_pos (show w.stacksStatus ≠ 200 from hstk)] at hmem
                simp only [List.mem_append, List.mem_cons, List.mem_singleton,
                  List.not_mem_nil, or_false, or_assoc] at hmem
                rcases hmem with hmem | hmem | hmem | hmem | hmem
                · exact Or.inl hmem
                · exact Or.inr (Or.inl hmem)
                · exact Or.inr (Or.inr (Or.inl ⟨ep, hep, hpmem req hmem⟩))
                · obtain ⟨hsw, hst⟩ := hsmem req hmem
                  exact Or.inr (Or.inr (Or.inr (Or.inl ⟨ep, hep, hsw, hst⟩)))
                · subst hmem
                  rw [hfilt]
                  exact Or.inr (Or.inr (Or.inr (Or.inr (Or.inl rfl))))
              case pos =>
                rw [if_neg (show ¬w.stacksStatus ≠ 200 by simpa using hstk)]
                  at hmem
                by_cases hcf : w.composeFileOk = false
                case pos =>
                  rw [if_pos hcf] at hmem
                  simp only [List.mem_append, List.mem_cons, List.mem_singleton,
                    List.not_mem_nil, or_false, or_assoc] at hmem
                  rcases hmem with hmem | hmem | hmem | hmem | hmem
                  · exact Or.inl hmem
                  · exact Or.inr (Or.inl hmem)
                  · exact Or.inr (Or.inr (Or.inl ⟨ep, hep, hpmem req hmem⟩))
                  · obtain ⟨hsw, hst⟩ := hsmem req hmem
                    exact Or.inr (Or.inr (Or.inr (Or.inl ⟨ep, hep, hsw, hst⟩)))
                  · subst hmem
                    rw [hfilt]
                    exact Or.inr (Or.inr (Or.inr (Or.inr (Or.inl rfl))))
                case neg =>
                  rw [if_neg hcf] at hmem
                  rcases hsf : w.stacksList.find? (fun s => s.Name == cfg.stackName)
                    with _ | stk
                  · simp only [hsf] at hmem
                    simp only [List.mem_append, List.mem_cons, List.mem_singleton,
                      List.not_mem_nil, or_false, or_assoc] at hmem
                    rcases hmem with hmem | hmem | hmem | hmem | hmem | hmem
                    · exact Or.inl hmem
                    · exact Or.inr (Or.inl hmem)
                    · exact Or.inr (Or.inr (Or.inl ⟨ep, hep, hpmem req hmem⟩))
                    · obtain ⟨hsw, hst⟩ := hsmem req hmem
                      exact Or.inr (Or.inr (Or.inr (Or.inl ⟨ep, hep, hsw, hst⟩)))
                    · subst hmem
                      rw [hfilt]
                      exact Or.inr (Or.inr (Or.inr (Or.inr (Or.inl rfl))))
                    · subst hmem
                      refine Or.inr (Or.inr (Or.inr (Or.inr (Or.inr (Or.inl
                        ⟨ep, hep, hsf, ?_⟩)))))
                      by_cases hsa : envTruthy cfg.standalone = true
                      · rw [hsa]
                        simp only [if_true, runEnv]
                      · have hsa2 : envTruthy cfg.standalone = false := by
                          simpa using hsa
                        rw [hsa2, hswid hsa2]
                        simp only [Bool.false_eq_true, if_false, runEnv]
                  · simp only [hsf] at hmem
                    simp only [List.mem_append, List.mem_cons, List.mem_singleton,
                      List.not_mem_nil, or_false, or_assoc] at hmem
                    rcases hmem with hmem | hmem | hmem | hmem | hmem | hmem
                    · exact Or.inl hmem
                    · exact Or.inr (Or.inl hmem)
                    · exact Or.inr (Or.inr (Or.inl ⟨ep, hep, hpmem req hmem⟩))
                    · obtain ⟨hsw, hst⟩ := hsmem req hmem
                      exact Or.inr (Or.inr (Or.inr (Or.inl ⟨ep, hep, hsw, hst⟩)))
                    · subst hmem
                      rw [hfilt]
                      exact Or.inr (Or.inr (Or.inr (Or.inr (Or.inl rfl))))
                    · subst hmem
                      exact Or.inr (Or.inr (Or.inr (Or.inr (Or.inr (Or.inr
                        ⟨ep, stk, hep, hsf, rfl⟩)))))

theorem swarmStage_count (cfg : Config) (w : World) (epId : Nat) :
    countReq isRegistriesReq (swarmStage cfg w epId).1 = 0 := by
  refine countReq_eq_zero ?_
  intro a ha
  obtain ⟨ha2, _⟩ := swarmStage_mem cfg w epId a ha
  subst ha2
  rfl

theorem run_registries_count (cfg : Config) (w : World) :
    countReq isRegistriesReq (run cfg w).trace ≤ 1 := by
  unfold run
  rcases hch : cfg.commitHash with _ | h
  · simp [countReq]
  · by_cases hh : h = ""
    · simp [hh, countReq]
    · simp only [if_neg hh]
      by_cases ha : w.authStatus = 200
      case neg =>
        rw [if_pos (show w.authStatus ≠ 200 from ha)]
        simp [countReq, isRegistriesReq]
      case pos =>
        rw [if_neg (show ¬w.authStatus ≠ 200 by simpa using ha)]
        rcases hep : w.endpointsList.find? (fun e => e.Name == cfg.endpointName)
          with _ | ep
        · simp only [hep]
          simp [countReq, isRegistriesReq]
        · simp only [hep]
          have hpc := pullStage_count cfg w ep.Id (mkReleaseTag cfg.branch h)
          rcases hps : pullStage cfg w ep.Id (mkReleaseTag cfg.branch h)
            with ⟨pullTr, pres⟩
          rw [hps] at hpc
          simp only at hpc
          have hsc := swarmStage_count cfg w ep.Id
          have h0 : countReq isRegistriesReq
              [Req.auth cfg.portainerUsername cfg.portainerPassword,
                Req.getEndpoints] = 0 := by
            simp [countReq, isRegistriesReq]
          cases pres with
          | error e =>
            simp only [countReq_append]
            omega
          | ok cache =>
            rcases hss : swarmStage cfg w ep.Id with ⟨swTr, sres⟩
            rw [hss] at hsc
            simp only at hsc
            cases sres with
            | error e =>
              simp only [countReq_append]
              omega
            | ok v =>
              rcases v with ⟨swid, filt⟩
              simp only []
              have h1 : countReq isRegistriesReq [Req.getStacks filt] = 0 := by
                simp [countReq, isRegistriesReq]
              by_cases hstk : w.stacksStatus = 200
              case neg =>
                rw [if_pos (show w.stacksStatus ≠ 200 from hstk)]
                simp only [countReq_append]
                omega
              case pos =>
                rw [if_neg (show ¬w.stacksStatus ≠ 200 by simpa using hstk)]
                by_cases hcf : w.composeFileOk = false
                case pos =>
                  rw [if_pos hcf]
                  simp only [countReq_append]
                  omega
                case neg =>
                  rw [if_neg hcf]
                  rcases hsf : w.stacksList.find? (fun s => s.Name == cfg.stackName)
                    with _ | stk
                  · simp only [hsf, countReq_append]
                    have h2 : countReq isRegistriesReq
                        [Req.createStack (if envTruthy cfg.standalone then 2 else 1)
                          ep.Id
                          ⟨cfg.stackName, w.composeFileContent,
                            mkComposeEnvArray (mkReleaseTag cfg.branch h)
                              (mkUrlPrefix cfg.branch) cfg.stackName
                              cfg.additionalComposeEnv, true,
                            if envTruthy cfg.standalone then none
                            else some swid⟩] = 0 := by
                      simp [countReq, isRegistriesReq]
                    omega
                  · simp only [hsf, countReq_append]
                    have h2 : countReq isRegistriesReq
                        [Req.updateStack stk.Id ep.Id
                          ⟨stk.Id, w.composeFileContent,
                            mkComposeEnvArray (mkReleaseTag cfg.branch h)
                              (mkUrlPrefix cfg.branch) cfg.stackName
                              cfg.additionalComposeEnv, true,
                            envTruthy cfg.forcePull⟩] = 0 := by
                      simp [countReq, isRegistriesReq]
                    omega

/-- Claim C3: when the commit hash is unset or empty the run exits 1
before any remote call (empty trace); otherwise the tag of every
image-pull request, and the `RELEASE_TAG` value heading the compose
environment of every stack create/update body, equals the branch name,
`"-"`, and the first 8 characters of the commit hash. -/
theorem release_tag_derivation (cfg : Config) (w : World) :
    ((cfg.commitHash = none ∨ cfg.commitHash = some "") →
      run cfg w = ⟨[], 1⟩) ∧
    (∀ h, cfg.commitHash = some h → h ≠ "" →
      (∀ e img tag auth, Req.pullImage e img tag auth ∈ (run cfg w).trace →
        tag = cfg.branch ++ "-" ++ jsSubstr0 h 8) ∧
      (∀ op e body, Req.createStack op e body ∈ (run cfg w).trace →
        body.Env.head? =
          some ⟨"RELEASE_TAG", cfg.branch ++ "-" ++ jsSubstr0 h 8⟩) ∧
      (∀ s e body, Req.updateStack s e body ∈ (run cfg w).trace →
        body.Env.head? =
          some ⟨"RELEASE_TAG", cfg.branch ++ "-" ++ jsSubstr0 h 8⟩)) := by
  constructor
  · intro hch
    rcases hch with hch | hch <;> simp [run, hch]
  · intro h hch hh
    refine ⟨?_, ?_, ?_⟩
    · intro e img tag auth hmem
      obtain ⟨h2, hch2, _, hspec⟩ := run_mem_spec cfg w _ hmem
      have hhe : some h = some h2 := hch.symm.trans hch2
      cases hhe
      rcases hspec with h1 | h1 | ⟨ep, _, h1⟩ | ⟨ep, _, h1, _⟩ | h1 |
        ⟨ep, _, _, h1⟩ | ⟨ep, stk, _, _, h1⟩
      · cases h1
      · cases h1
      · simp only [pullReqSpec] at h1
        rcases h1 with h1 | ⟨img2, auth2, h1, _, _⟩
        · cases h1
        · injection h1 with e1 e2 e3 e4
      · cases h1
      · cases h1
      · cases h1
      · cases h1
    · intro op e body hmem
      obtain ⟨h2, hch2, _, hspec⟩ := run_mem_spec cfg w _ hmem
      have hhe : some h = some h2 := hch.symm.trans hch2
      cases hhe
      rcases hspec with h1 | h1 | ⟨ep, _, h1⟩ | ⟨ep, _, h1, _⟩ | h1 |
        ⟨ep, _, _, h1⟩ | ⟨ep, stk, _, _, h1⟩
      · cases h1
      · cases h1
      · simp only [pullReqSpec] at h1
        rcases h1 with h1 | ⟨img2, auth2, h1, _, _⟩ <;> cases h1
      · cases h1
      · cases h1
      · injection h1 with e1 e2 e3
        subst e3
        rfl
      · cases h1
    · intro s e body hmem
      obtain ⟨h2, hch2, _, hspec⟩ := run_mem_spec cfg w _ hmem
      have hhe : some h = some h2 := hch.symm.trans hch2
      cases hhe
      rcases hspec with h1 | h1 | ⟨ep, _, h1⟩ | ⟨ep, _, h1, _⟩ | h1 |
        ⟨ep, _, _, h1⟩ | ⟨ep, stk, _, _, h1⟩
      · cases h1
      · cases h1
      · simp only [pullReqSpec] at h1
        rcases h1 with h1 | ⟨img2, auth2, h1, _, _⟩ <;> cases h1
      · cases h1
      · cases h1
      · cases h1
      · injection h1 with e1 e2 e3
        subst e3
        rfl

/-- Claim C4: the `Prune` field is the literal `true` in every
stack-create and stack-update request body any run ever sends, in both
standalone and clustered mode. -/
theorem prune_always_true (cfg : Config) (w : World) :
    (∀ op e body, Req.createStack op e body ∈ (run cfg w).trace →
      body.Prune = true) ∧
    (∀ s e body, Req.updateStack s e body ∈ (run cfg w).trace →
      body.Prune = true) := by
  constructor
  · intro op e body hmem
    obtain ⟨h2, _, _, hspec⟩ := run_mem_spec cfg w _ hmem
    rcases hspec with h1 | h1 | ⟨ep, _, h1⟩ | ⟨ep, _, h1, _⟩ | h1 |
      ⟨ep, _, _, h1⟩ | ⟨ep, stk, _, _, h1⟩
    · cases h1
    · cases h1
    · simp only [pullReqSpec] at h1
      rcases h1 with h1 | ⟨img2, auth2, h1, _, _⟩ <;> cases h1
    · cases h1
    · cases h1
    · injection h1 with e1 e2 e3
      subst e3
      rfl
    · cases h1
  · intro s e body hmem
    obtain ⟨h2, _, _, hspec⟩ := run_mem_spec cfg w _ hmem
    rcases hspec with h1 | h1 | ⟨ep, _, h1⟩ | ⟨ep, _, h1, _⟩ | h1 |
      ⟨ep, _, _, h1⟩ | ⟨ep, stk, _, _, h1⟩
    · cases h1
    · cases h1
    · simp only [pullReqSpec] at h1
      rcases h1 with h1 | ⟨img2, auth2, h1, _, _⟩ <;> cases h1
    · cases h1
    · cases h1
    · cases h1
    · injection h1 with e1 e2 e3
      subst e3
      rfl

/-- Claim C5: a pull request carries an `X-Registry-Auth` header exactly
when the segment of the image name before the first `/` differs from
`"docker.io"`, and a carried header holds a registry id resolved from the
control plane's registry list by exact URL match on that segment. -/
theorem registry_auth_iff_private_host (cfg : Config) (w : World)
    (e : Nat) (img tag : String) (auth : Option Nat)
    (hmem : Req.pullImage e img tag auth ∈ (run cfg w).trace) :
    (auth.isSome = true ↔ imageHost img ≠ "docker.io") ∧
    (∀ i, auth = some i →
      ∃ reg, reg ∈ w.registriesList ∧ reg.URL = imageHost img ∧ reg.Id = i) := by
  obtain ⟨h2, _, _, hspec⟩ := run_mem_spec cfg w _ hmem
  rcases hspec with h1 | h1 | ⟨ep, _, h1⟩ | ⟨ep, _, h1, _⟩ | h1 |
    ⟨ep, _, _, h1⟩ | ⟨ep, stk, _, _, h1⟩
  · cases h1
  · cases h1
  · simp only [pullReqSpec] at h1
    rcases h1 with h1 | ⟨img2, auth2, h1, hiff, hauth⟩
    · cases h1
    · cases h1
      exact ⟨hiff, hauth⟩
  · cases h1
  · cases h1
  · cases h1
  · cases h1

/-- Claim C7: the compose environment sent in every stack create/update
body begins with the three mandatory entries `RELEASE_TAG`, `URL_PREFIX`,
`STACK_NAME` in that order, followed by the caller-supplied additional
entries in their source iteration order. -/
theorem compose_env_order (cfg : Config) (w : World) :
    (∀ op e body, Req.createStack op e body ∈ (run cfg w).trace →
      ∃ rt up, body.Env =
        [⟨"RELEASE_TAG", rt⟩, ⟨"URL_PREFIX", up⟩, ⟨"STACK_NAME", cfg.stackName⟩]
        ++ cfg.additionalComposeEnv.map (fun p => ⟨p.1, p.2⟩)) ∧
    (∀ s e body, Req.updateStack s e body ∈ (run cfg w).trace →
      ∃ rt up, body.Env =
        [⟨"RELEASE_TAG", rt⟩, ⟨"URL_PREFIX", up⟩, ⟨"STACK_NAME", cfg.stackName⟩]
        ++ cfg.additionalComposeEnv.map (fun p => ⟨p.1, p.2⟩)) := by
  constructor
  · intro op e body hmem
    obtain ⟨h2, _, _, hspec⟩ := run_mem_spec cfg w _ hmem
    rcases hspec with h1 | h1 | ⟨ep, _, h1⟩ | ⟨ep, _, h1, _⟩ | h1 |
      ⟨ep, _, _, h1⟩ | ⟨ep, stk, _, _, h1⟩
    · cases h1
    · cases h1
    · simp only [pullReqSpec] at h1
      rcases h1 with h1 | ⟨img2, auth2, h1, _, _⟩ <;> cases h1
    · cases h1
    · cases h1
    · injection h1 with e1 e2 e3
      subst e3
      exact ⟨mkReleaseTag cfg.branch h2, mkUrlPrefix cfg.branch, rfl⟩
    · cases h1
  · intro s e body hmem
    obtain ⟨h2, _, _, hspec⟩ := run_mem_spec cfg w _ hmem
    rcases hspec with h1 | h1 | ⟨ep, _, h1⟩ | ⟨ep, _, h1, _⟩ | h1 |
      ⟨ep, _, _, h1⟩ | ⟨ep, stk, _, _, h1⟩
    · cases h1
    · cases h1
    · simp only [pullReqSpec] at h1
      rcases h1 with h1 | ⟨img2, auth2, h1, _, _⟩ <;> cases h1
    · cases h1
    · cases h1
    · cases h1
    · injection h1 with e1 e2 e3
      subst e3
      exact ⟨mkReleaseTag cfg.branch h2, mkUrlPrefix cfg.branch, rfl⟩

theorem runEnv_get1 (cfg : Config) (h : String) :
    (runEnv cfg h)[1]? = some ⟨"URL_PREFIX", mkUrlPrefix cfg.branch⟩ := rfl

/-- Claim C8: in every stack create/update body, the second compose
environment entry is `URL_PREFIX`, valued the empty string when the
branch is the literal `"main"` and the branch name followed by `"."`
otherwise. -/
theorem url_prefix_value (cfg : Config) (w : World) :
    (∀ op e body, Req.createStack op e body ∈ (run cfg w).trace →
      (cfg.branch = "main" → body.Env[1]? = some ⟨"URL_PREFIX", ""⟩) ∧
      (cfg.branch ≠ "main" →
        body.Env[1]? = some ⟨"URL_PREFIX", cfg.branch ++ "."⟩)) ∧
    (∀ s e body, Req.updateStack s e body ∈ (run cfg w).trace →
      (cfg.branch = "main" → body.Env[1]? = some ⟨"URL_PREFIX", ""⟩) ∧
      (cfg.branch ≠ "main" →
        body.Env[1]? = some ⟨"URL_PREFIX", cfg.branch ++ "."⟩)) := by
  constructor
  · intro op e body hmem
    obtain ⟨h2, _, _, hspec⟩ := run_mem_spec cfg w _ hmem
    rcases hspec with h1 | h1 | ⟨ep, _, h1⟩ | ⟨ep, _, h1, _⟩ | h1 |
      ⟨ep, _, _, h1⟩ | ⟨ep, stk, _, _, h1⟩
    · cases h1
    · cases h1
    · simp only [pullReqSpec] at h1
      rcases h1 with h1 | ⟨img2, auth2, h1, _, _⟩ <;> cases h1
    · cases h1
    · cases h1
    · injection h1 with e1 e2 e3
      subst e3
      refine ⟨fun hb => ?_, fun hb => ?_⟩
      · show (runEnv cfg h2)[1]? = some ⟨"URL_PREFIX", ""⟩
        rw [runEnv_get1]
        simp [mkUrlPrefix, hb]
      · show (runEnv cfg h2)[1]? = some ⟨"URL_PREFIX", cfg.branch ++ "."⟩
        rw [runEnv_get1]
        simp [mkUrlPrefix, hb]
    · cases h1
  · intro s e body hmem
    obtain ⟨h2, _, _, hspec⟩ := run_mem_spec cfg w _ hmem
    rcases hspec with h1 | h1 | ⟨ep, _, h1⟩ | ⟨ep, _, h1, _⟩ | h1 |
      ⟨ep, _, _, h1⟩ | ⟨ep, stk, _, _, h1⟩
    · cases h1
    · cases h1
    · simp only [pullReqSpec] at h1
      rcases h1 with h1 | ⟨img2, auth2, h1, _, _⟩ <;> cases h1
    · cases h1
    · cases h1
    · cases h1
    · injection h1 with e1 e2 e3
      subst e3
      refine ⟨fun hb => ?_, fun hb => ?_⟩
      · show (runEnv cfg h2)[1]? = some ⟨"URL_PREFIX", ""⟩
        rw [runEnv_get1]
        simp [mkUrlPrefix, hb]
      · show (runEnv cfg h2)[1]? = some ⟨"URL_PREFIX", cfg.branch ++ "."⟩
        rw [runEnv_get1]
        simp [mkUrlPrefix, hb]

/-- Claim C10: the standalone and force-pull options are read by raw
string truthiness: any non-empty standalone value — including the literal
`"false"` — yields the standalone path (no swarm request, unfiltered
stack listing, create operation type 2 with no `SwarmID` field), and any
non-empty force-pull value yields `PullImage: true` in the update
body. -/
theorem raw_truthiness_semantics (cfg : Config) (w : World) :
    (∀ s, cfg.standalone = some s → s ≠ "" →
      (∀ e, Req.getSwarm e ∉ (run cfg w).trace) ∧
      (∀ f, Req.getStacks f ∈ (run cfg w).trace → f = none) ∧
      (∀ op e body, Req.createStack op e body ∈ (run cfg w).trace →
        op = 2 ∧ body.SwarmID = none)) ∧
    (∀ fp, cfg.forcePull = some fp → fp ≠ "" →
      ∀ s e body, Req.updateStack s e body ∈ (run cfg w).trace →
        body.PullImage = true) := by
  constructor
  · intro s hstand hs
    have hsa : envTruthy cfg.standalone = true := by
      simp [envTruthy, hstand, hs]
    refine ⟨?_, ?_, ?_⟩
    · intro e hmem
      obtain ⟨h2, _, _, hspec⟩ := run_mem_spec cfg w _ hmem
      rcases hspec with h1 | h1 | ⟨ep, _, h1⟩ | ⟨ep, _, h1, hfalse⟩ | h1 |
        ⟨ep, _, _, h1⟩ | ⟨ep, stk, _, _, h1⟩
      · cases h1
      · cases h1
      · simp only [pullReqSpec] at h1
        rcases h1 with h1 | ⟨img2, auth2, h1, _, _⟩ <;> cases h1
      · simp [hsa] at hfalse
      · cases h1
      · cases h1
      · cases h1
    · intro f hmem
      obtain ⟨h2, _, _, hspec⟩ := run_mem_spec cfg w _ hmem
      rcases hspec with h1 | h1 | ⟨ep, _, h1⟩ | ⟨ep, _, h1, _⟩ | h1 |
        ⟨ep, _, _, h1⟩ | ⟨ep, stk, _, _, h1⟩
      · cases h1
      · cases h1
      · simp only [pullReqSpec] at h1
        rcases h1 with h1 | ⟨img2, auth2, h1, _, _⟩ <;> cases h1
      · cases h1
      · cases h1
        rw [hsa]
        simp
      · cases h1
      · cases h1
    · intro op e body hmem
      obtain ⟨h2, _, _, hspec⟩ := run_mem_spec cfg w _ hmem
      rcases hspec with h1 | h1 | ⟨ep, _, h1⟩ | ⟨ep, _, h1, _⟩ | h1 |
        ⟨ep, _, _, h1⟩ | ⟨ep, stk, _, _, h1⟩
      · cases h1
      · cases h1
      · simp only [pullReqSpec] at h1
        rcases h1 with h1 | ⟨img2, auth2, h1, _, _⟩ <;> cases h1
      · cases h1
      · cases h1
      · injection h1 with e1 e2 e3
        subst e1
        subst e3
        simp [hsa]
      · cases h1
  · intro fp hfp hfp2 s e body hmem
    obtain ⟨h2, _, _, hspec⟩ := run_mem_spec cfg w _ hmem
    rcases hspec with h1 | h1 | ⟨ep, _, h1⟩ | ⟨ep, _, h1, _⟩ | h1 |
      ⟨ep, _, _, h1⟩ | ⟨ep, stk, _, _, h1⟩
    · cases h1
    · cases h1
    · simp only [pullReqSpec] at h1
      rcases h1 with h1 | ⟨img2, auth2, h1, _, _⟩ <;> cases h1
    · cases h1
    · cases h1
    · cases h1
    · injection h1 with e1 e2 e3
      subst e3
      simp [envTruthy, hfp, hfp2]

/-- Claim C1: on every run that reaches the reconciliation stage, exactly
one of stack create / stack update executes, selected by whether the
fetched (optionally swarm-filtered) stack list has an entry whose `Name`
equals the configured stack name.  When such an entry exists, exactly one
update request is issued, addressed to that entry's `Id`, and no create
request; otherwise exactly one create request and no update request. -/
theorem stack_reconcile_exactly_one (cfg : Config) (w : World)
    (h : String) (ep : Endpoint)
    (hc : cfg.commitHash = some h) (hh : h ≠ "")
    (ha : w.authStatus = 200)
    (hep : w.endpointsList.find? (fun e => e.Name == cfg.endpointName) = some ep)
    (hpull : stageOk (pullStage cfg w ep.Id (mkReleaseTag cfg.branch h)).2 = true)
    (hsw : stageOk (swarmStage cfg w ep.Id).2 = true)
    (hst : w.stacksStatus = 200)
    (hcf : w.composeFileOk = true) :
    (∀ stk, w.stacksList.find? (fun s => s.Name == cfg.stackName) = some stk →
      countReq isUpdateReq (run cfg w).trace = 1 ∧
      countReq isCreateReq (run cfg w).trace = 0 ∧
      ∃ body, Req.updateStack stk.Id ep.Id body ∈ (run cfg w).trace) ∧
    (w.stacksList.find? (fun s => s.Name == cfg.stackName) = none →
      countReq isCreateReq (run cfg w).trace = 1 ∧
      countReq isUpdateReq (run cfg w).trace = 0) := by
  rcases hps : pullStage cfg w ep.Id (mkReleaseTag cfg.branch h)
    with ⟨pullTr, pres⟩
  cases pres with
  | error er =>
    rw [hps] at hpull
    simp [stageOk] at hpull
  | ok cache =>
  rcases hss : swarmStage cfg w ep.Id with ⟨swTr, sres⟩
  cases sres with
  | error er =>
    rw [hss] at hsw
    simp [stageOk] at hsw
  | ok v =>
  rcases v with ⟨swid, filt⟩
  have hnoPull : ∀ req ∈ pullTr,
      isCreateReq req = false ∧ isUpdateReq req = false := by
    intro req hreq
    have hsp := pullStage_spec cfg w ep.Id (mkReleaseTag cfg.branch h) req
      (by rw [hps]; exact hreq)
    simp only [pullReqSpec] at hsp
    rcases hsp with hcase | ⟨img, auth, hcase, _, _⟩ <;> subst hcase <;>
      exact ⟨rfl, rfl⟩
  have hnoSw : ∀ req ∈ swTr,
      isCreateReq req = false ∧ isUpdateReq req = false := by
    intro req hreq
    obtain ⟨hcase, _⟩ := swarmStage_mem cfg w ep.Id req (by rw [hss]; exact hreq)
    subst hcase
    exact ⟨rfl, rfl⟩
  constructor
  · intro stk hstk
    have htr : (run cfg w).trace =
        [Req.auth cfg.portainerUsername cfg.portainerPassword,
          Req.getEndpoints] ++ pullTr ++ swTr ++ [Req.getStacks filt] ++
          [Req.updateStack stk.Id ep.Id
            ⟨stk.Id, w.composeFileContent, runEnv cfg h, true,
              envTruthy cfg.forcePull⟩] := by
      unfold run
      simp only [hc, if_neg hh]
      rw [if_neg (show ¬w.authStatus ≠ 200 by simpa using ha)]
      simp only [hep, hps, hss]
      rw [if_neg (show ¬w.stacksStatus ≠ 200 by simpa using hst)]
      rw [if_neg (show ¬w.composeFileOk = false by simp [hcf])]
      simp only [hstk]
      rfl
    refine ⟨?_, ?_, ?_⟩
    · rw [htr]
      simp only [countReq_append]
      have c1 : countReq isUpdateReq
          [Req.auth cfg.portainerUsername cfg.portainerPassword,
            Req.getEndpoints] = 0 := by simp [countReq, isUpdateReq]
      have c2 : countReq isUpdateReq pullTr = 0 :=
        countReq_eq_zero (fun a ha2 => (hnoPull a ha2).2)
      have c3 : countReq isUpdateReq swTr = 0 :=
        countReq_eq_zero (fun a ha2 => (hnoSw a ha2).2)
      have c4 : countReq isUpdateReq [Req.getStacks filt] = 0 := by
        simp [countReq, isUpdateReq]
      have c5 : countReq isUpdateReq
          [Req.updateStack stk.Id ep.Id
            ⟨stk.Id, w.composeFileContent, runEnv cfg h, true,
              envTruthy cfg.forcePull⟩] = 1 := by
        simp [countReq, isUpdateReq]
      omega
    · rw [htr]
      simp only [countReq_append]
      have c1 : countReq isCreateReq
          [Req.auth cfg.portainerUsername cfg.portainerPassword,
            Req.getEndpoints] = 0 := by simp [countReq, isCreateReq]
      have c2 : countReq isCreateReq pullTr = 0 :=
        countReq_eq_zero (fun a ha2 => (hnoPull a ha2).1)
      have c3 : countReq isCreateReq swTr = 0 :=
        countReq_eq_zero (fun a ha2 => (hnoSw a ha2).1)
      have c4 : countReq isCreateReq [Req.getStacks filt] = 0 := by
        simp [countReq, isCreateReq]
      have c5 : countReq isCreateReq
          [Req.updateStack stk.Id ep.Id
            ⟨stk.Id, w.composeFileContent, runEnv cfg h, true,
              envTruthy cfg.forcePull⟩] = 0 := by
        simp [countReq, isCreateReq]
      omega
    · refine ⟨⟨stk.Id, w.composeFileContent, runEnv cfg h, true,
        envTruthy cfg.forcePull⟩, ?_⟩
      rw [htr]
      simp
  · intro hstk
    have htr : (run cfg w).trace =
        [Req.auth cfg.portainerUsername cfg.portainerPassword,
          Req.getEndpoints] ++ pullTr ++ swTr ++ [Req.getStacks filt] ++
          [Req.createStack (if envTruthy cfg.standalone then 2 else 1) ep.Id
            ⟨cfg.stackName, w.composeFileContent, runEnv cfg h, true,
              if envTruthy cfg.standalone then none else some swid⟩] := by
      unfold run
      simp only [hc, if_neg hh]
      rw [if_neg (show ¬w.authStatus ≠ 200 by simpa using ha)]
      simp only [hep, hps, hss]
      rw [if_neg (show ¬w.stacksStatus ≠ 200 by simpa using hst)]
      rw [if_neg (show ¬w.composeFileOk = false by simp [hcf])]
      simp only [hstk]
      rfl
    constructor
    · rw [htr]
      simp only [countReq_append]
      have c1 : countReq isCreateReq
          [Req.auth cfg.portainerUsername cfg.portainerPassword,
            Req.getEndpoints] = 0 := by simp [countReq, isCreateReq]
      have c2 : countReq isCreateReq pullTr = 0 :=
        countReq_eq_zero (fun a ha2 => (hnoPull a ha2).1)
      have c3 : countReq isCreateReq swTr = 0 :=
        countReq_eq_zero (fun a ha2 => (hnoSw a ha2).1)
      have c4 : countReq isCreateReq [Req.getStacks filt] = 0 := by
        simp [countReq, isCreateReq]
      have c5 : countReq isCreateReq
          [Req.createStack (if envTruthy cfg.standalone then 2 else 1) ep.Id
            ⟨cfg.stackName, w.composeFileContent, runEnv cfg h, true,
              if envTruthy cfg.standalone then none else some swid⟩] = 1 := by
        simp [countReq, isCreateReq]
      omega
    · rw [htr]
      simp only [countReq_append]
      have c1 : countReq isUpdateReq
          [Req.auth cfg.portainerUsername cfg.portainerPassword,
            Req.getEndpoints] = 0 := by simp [countReq, isUpdateReq]
      have c2 : countReq isUpdateReq pullTr = 0 :=
        countReq_eq_zero (fun a ha2 => (hnoPull a ha2).2)
      have c3 : countReq isUpdateReq swTr = 0 :=
        countReq_eq_zero (fun a ha2 => (hnoSw a ha2).2)
      have c4 : countReq isUpdateReq [Req.getStacks filt] = 0 := by
        simp [countReq, isUpdateReq]
      have c5 : countReq isUpdateReq
          [Req.createStack (if envTruthy cfg.standalone then 2 else 1) ep.Id
            ⟨cfg.stackName, w.composeFileContent, runEnv cfg h, true,
              if envTruthy cfg.standalone then none else some swid⟩] = 0 := by
        simp [countReq, isUpdateReq]
      omega

theorem pullStage_skip (cfg : Config) (w : World)
    (hgd : cfg.images.getD "" = "") (epId : Nat) (tag : String) :
    pullStage cfg w epId tag = ([], Except.ok none) := by
  simp [pullStage, hgd]

theorem swarmStage_trace (cfg : Config) (w : World) (epId : Nat) :
    (envTruthy cfg.standalone = true ∧ (swarmStage cfg w epId).1 = []) ∨
    (envTruthy cfg.standalone = false ∧
      (swarmStage cfg w epId).1 = [Req.getSwarm epId]) := by
  by_cases hsa : envTruthy cfg.standalone = true
  · exact Or.inl ⟨hsa, by simp [swarmStage, hsa]⟩
  · have hsa2 : envTruthy cfg.standalone = false := by simpa using hsa
    exact Or.inr ⟨hsa2, by simp [swarmStage, hsa2]⟩

theorem run_no_pull_when_images_empty (cfg : Config) (w : World)
    (hgd : cfg.images.getD "" = "") :
    ∀ req ∈ (run cfg w).trace,
      isPullReq req = false ∧ isRegistriesReq req = false := by
  intro req hmem
  unfold run at hmem
  rcases hch : cfg.commitHash with _ | h
  · simp only [hch] at hmem
    simp at hmem
  · simp only [hch] at hmem
    by_cases hh : h = ""
    · rw [if_pos hh] at hmem
      simp at hmem
    · rw [if_neg hh] at hmem
      by_cases ha : w.authStatus = 200
      case neg =>
        rw [if_pos (show w.authStatus ≠ 200 from ha)] at hmem
        simp only [List.mem_singleton] at hmem
        subst hmem
        exact ⟨rfl, rfl⟩
      case pos =>
        rw [if_neg (show ¬w.authStatus ≠ 200 by simpa using ha)] at hmem
        rcases hep : w.endpointsList.find? (fun e => e.Name == cfg.endpointName)
          with _ | ep
        · simp only [hep] at hmem
          simp only [List.mem_cons, List.not_mem_nil, or_false] at hmem
          rcases hmem with hmem | hmem <;> subst hmem <;> exact ⟨rfl, rfl⟩
        · simp only [hep,
            pullStage_skip cfg w hgd ep.Id (mkReleaseTag cfg.branch h)] at hmem
          have hsmem := swarmStage_mem cfg w ep.Id
          rcases hss : swarmStage cfg w ep.Id with ⟨swTr, sres⟩
          rw [hss] at hsmem
          simp only [hss] at hmem
          cases sres with
          | error e =>
            simp only [List.mem_append, List.mem_cons, List.not_mem_nil,
              or_false, or_assoc] at hmem
            rcases hmem with hmem | hmem | hmem
            · subst hmem; exact ⟨rfl, rfl⟩
            · subst hmem; exact ⟨rfl, rfl⟩
            · obtain ⟨hcase, _⟩ := hsmem req hmem
              subst hcase
              exact ⟨rfl, rfl⟩
          | ok v =>
            rcases v with ⟨swid, filt⟩
            simp only [] at hmem
            by_cases hstk : w.stacksStatus = 200
            case neg =>
              rw [if_pos (show w.stacksStatus ≠ 200 from hstk)] at hmem
              simp only [List.mem_append, List.mem_cons, List.not_mem_nil,
                or_false, or_assoc] at hmem
              rcases hmem with hmem | hmem | hmem | hmem
              · subst hmem; exact ⟨rfl, rfl⟩
              · subst hmem; exact ⟨rfl, rfl⟩
              · obtain ⟨hcase, _⟩ := hsmem req hmem
                subst hcase
                exact ⟨rfl, rfl⟩
              · subst hmem; exact ⟨rfl, rfl⟩
            case pos =>
              rw [if_neg (show ¬w.stacksStatus ≠ 200 by simpa using hstk)]
                at hmem
              by_cases hcf : w.composeFileOk = false
              case pos =>
                rw [if_pos hcf] at hmem
                simp only [List.mem_append, List.mem_cons, List.not_mem_nil,
                  or_false, or_assoc] at hmem
                rcases hmem with hmem | hmem | hmem | hmem
                · subst hmem; exact ⟨rfl, rfl⟩
                · subst hmem; exact ⟨rfl, rfl⟩
                · obtain ⟨hcase, _⟩ := hsmem req hmem
                  subst hcase
                  exact ⟨rfl, rfl⟩
                · subst hmem; exact ⟨rfl, rfl⟩
              case neg =>
                rw [if_neg hcf] at hmem
                rcases hsf : w.stacksList.find?
                    (fun s => s.Name == cfg.stackName) with _ | stk
                · simp only [hsf] at hmem
                  simp only [List.mem_append, List.mem_cons, List.not_mem_nil,
                    or_false, or_assoc] at hmem
                  rcases hmem with hmem | hmem | hmem | hmem | hmem
                  · subst hmem; exact ⟨rfl, rfl⟩
                  · subst hmem; exact ⟨rfl, rfl⟩
                  · obtain ⟨hcase, _⟩ := hsmem req hmem
                    subst hcase
                    exact ⟨rfl, rfl⟩
                  · subst hmem; exact ⟨rfl, rfl⟩
                  · subst hmem; exact ⟨rfl, rfl⟩
                · simp only [hsf] at hmem
                  simp only [List.mem_append, List.mem_cons, List.not_mem_nil,
                    or_false, or_assoc] at hmem
                  rcases hmem with hmem | hmem | hmem | hmem | hmem
                  · subst hmem; exact ⟨rfl, rfl⟩
                  · subst hmem; exact ⟨rfl, rfl⟩
                  · obtain ⟨hcase, _⟩ := hsmem req hmem
                    subst hcase
                    exact ⟨rfl, rfl⟩
                  · subst hmem; exact ⟨rfl, rfl⟩
                  · subst hmem; exact ⟨rfl, rfl⟩

theorem run_skip_to_stack_stage (cfg : Config) (w : World)
    (hgd : cfg.images.getD "" = "") (h : String) (ep : Endpoint)
    (hc : cfg.commitHash = some h) (hh : h ≠ "")
    (ha : w.authStatus = 200)
    (hep : w.endpointsList.find? (fun e => e.Name == cfg.endpointName) = some ep) :
    ∃ rest, (run cfg w).trace =
        Req.auth cfg.portainerUsername cfg.portainerPassword ::
          Req.getEndpoints :: rest ∧
      (rest.head? = some (Req.getSwarm ep.Id) ∨
        rest.head? = some (Req.getStacks none)) := by
  rcases hss : swarmStage cfg w ep.Id with ⟨swTr, sres⟩
  cases sres with
  | error e =>
    have htr : (run cfg w).trace =
        [Req.auth cfg.portainerUsername cfg.portainerPassword,
          Req.getEndpoints] ++ [] ++ swTr := by
      unfold run
      simp only [hc, if_neg hh]
      rw [if_neg (show ¬w.authStatus ≠ 200 by simpa using ha)]
      simp only [hep,
        pullStage_skip cfg w hgd ep.Id (mkReleaseTag cfg.branch h), hss]
    rcases swarmStage_trace cfg w ep.Id with ⟨hsa, h1⟩ | ⟨hsa, h1⟩
    · simp [swarmStage, hsa] at hss
    · rw [hss] at h1
      simp only at h1
      subst h1
      refine ⟨[Req.getSwarm ep.Id], by rw [htr]; simp, Or.inl rfl⟩
  | ok v =>
    rcases v with ⟨swid, filt⟩
    have hsok := swarmStage_ok cfg w ep.Id swTr swid filt hss
    have hshape : ∃ tail, (run cfg w).trace =
        Req.auth cfg.portainerUsername cfg.portainerPassword ::
          Req.getEndpoints :: (swTr ++ Req.getStacks filt :: tail) := by
      unfold run
      simp only [hc, if_neg hh]
      rw [if_neg (show ¬w.authStatus ≠ 200 by simpa using ha)]
      simp only [hep,
        pullStage_skip cfg w hgd ep.Id (mkReleaseTag cfg.branch h), hss]
      by_cases hstk : w.stacksStatus = 200
      case neg =>
        rw [if_pos (show w.stacksStatus ≠ 200 from hstk)]
        exact ⟨[], by simp⟩
      case pos =>
        rw [if_neg (show ¬w.stacksStatus ≠ 200 by simpa using hstk)]
        by_cases hcf : w.composeFileOk = false
        case pos =>
          rw [if_pos hcf]
          exact ⟨[], by simp⟩
        case neg =>
          rw [if_neg hcf]
          rcases hsf : w.stacksList.find? (fun s => s.Name == cfg.stackName)
            with _ | stk
          · simp only [hsf]
            refine ⟨[Req.createStack (if envTruthy cfg.standalone then 2 else 1)
              ep.Id
              ⟨cfg.stackName, w.composeFileContent,
                mkComposeEnvArray (mkReleaseTag cfg.branch h)
                  (mkUrlPrefix cfg.branch) cfg.stackName
                  cfg.additionalComposeEnv, true,
                if envTruthy cfg.standalone then none else some swid⟩], ?_⟩
            simp
          · simp only [hsf]
            refine ⟨[Req.updateStack stk.Id ep.Id
              ⟨stk.Id, w.composeFileContent,
                mkComposeEnvArray (mkReleaseTag cfg.branch h)
                  (mkUrlPrefix cfg.branch) cfg.stackName
                  cfg.additionalComposeEnv, true,
                envTruthy cfg.forcePull⟩], ?_⟩
            simp
    obtain ⟨tail, htr⟩ := hshape
    rcases hsok with ⟨hsa, hswTr, _, hfiltn⟩ | ⟨hsa, hswTr, _, _, _⟩
    · subst hswTr
      subst hfiltn
      exact ⟨Req.getStacks none :: tail, by rw [htr]; simp, Or.inr rfl⟩
    · subst hswTr
      exact ⟨Req.getSwarm ep.Id :: Req.getStacks filt :: tail,
        by rw [htr]; simp, Or.inl rfl⟩

/-- Claim C9: when the image-list option is unset or empty, the pull
stage is skipped entirely — no run ever issues an image-pull or
registry-list request — and (when the preceding stages succeed) the
request following the endpoints fetch is already the stack stage's swarm
lookup or stack listing. -/
theorem empty_images_skip_pull (cfg : Config) (w : World)
    (him : cfg.images = none ∨ cfg.images = some "") :
    (∀ req ∈ (run cfg w).trace,
      isPullReq req = false ∧ isRegistriesReq req = false) ∧
    (∀ h ep, cfg.commitHash = some h → h ≠ "" → w.authStatus = 200 →
      w.endpointsList.find? (fun e => e.Name == cfg.endpointName) = some ep →
      ∃ rest, (run cfg w).trace =
          Req.auth cfg.portainerUsername cfg.portainerPassword ::
            Req.getEndpoints :: rest ∧
        (rest.head? = some (Req.getSwarm ep.Id) ∨
          rest.head? = some (Req.getStacks none))) := by
  have hgd : cfg.images.getD "" = "" := by
    rcases him with h | h <;> simp [h]
  exact ⟨run_no_pull_when_images_empty cfg w hgd,
    fun h ep hc hh ha hep => run_skip_to_stack_stage cfg w hgd h ep hc hh ha hep⟩

/-- Claim C6, as amended: each pull of an image whose host is not
`docker.io` issues its own registry-list fetch at launch, because all
pull callbacks start (synchronously, in array order) before any fetch
response can populate the cache — the fetch count equals the number of
non-exempt images, not one.  Registry-auth resolutions that complete
sequentially do hit the cache: across a whole run of the sequentialised
pipeline at most one registry-list fetch occurs. -/
theorem registry_fetch_cache_behaviour :
    (∀ epId tag imgs,
      countReq isRegistriesReq (pullLaunchReqs none epId tag imgs)
        = (imgs.filter (fun i => imageHost i != "docker.io")).length) ∧
    (∀ cfg w, countReq isRegistriesReq (run cfg w).trace ≤ 1) := by
  constructor
  · intro epId tag imgs
    induction imgs with
    | nil => simp [pullLaunchReqs, countReq]
    | cons img rest ih =>
      simp only [pullLaunchReqs, countReq_append, List.filter]
      by_cases hho : (imageHost img != "docker.io") = true
      · rw [if_pos hho, hho]
        simp only [List.length_cons]
        have h1 : countReq isRegistriesReq [Req.getRegistries] = 1 := by
          simp [countReq, isRegistriesReq]
        omega
      · have hho2 : (imageHost img != "docker.io") = false := by
          simpa using hho
        simp only [hho2]
        rw [if_neg (by simp)]
        have h1 : ∀ e i t, countReq isRegistriesReq [Req.pullImage e i t none] = 0 := by
          intro e i t
          simp [countReq, isRegistriesReq]
        have h2 := h1 epId img tag
        omega
  · exact run_registries_count

/-- Claim C6 counterexample: for the image list
`"registry.example.com/svc,registry.example.com/web"` — two resolutions
of the same host within one run — the launch of the pull callbacks
issues two registry-list fetches, not at most one: the second callback
tests the cache before the first fetch's response can have arrived. -/
theorem registries_fetch_duplicated_counterexample :
    countReq isRegistriesReq
      (pullLaunchReqs none 1 "main-fedcba98"
        (jsSplit "registry.example.com/svc,registry.example.com/web" ',')) = 2 := by
  decide

example : run cfgU wU =
    ⟨[Req.auth "u" "p", Req.getEndpoints, Req.getRegistries,
      Req.pullImage 1 "registry.example.com/svc" "dev-01234567" (some 5),
      Req.pullImage 1 "docker.io/app" "dev-01234567" none,
      Req.getStacks none, Req.updateStack 7 1 wUBody], 0⟩ := by rfl

example : run cfgC wC =
    ⟨[Req.auth "u2" "p2", Req.getEndpoints, Req.getSwarm 1,
      Req.getStacks (some "sw1"),
      Req.createStack 1 1
        ⟨"api", "x:",
          [⟨"RELEASE_TAG", "main-fedcba98"⟩, ⟨"URL_PREFIX", ""⟩,
            ⟨"STACK_NAME", "api"⟩], true, some "sw1"⟩], 0⟩ := by rfl

/-- Claim C2 (code bug): the status check placed after the endpoints
fetch re-tests `response.status` — the auth response, already known to be
200 — instead of `endpointsReponse.status`, so a non-success endpoints
status does not halt the run.  Concretely: with the endpoints fetch
answering status 500 (body still listing the endpoint), the run goes on
to issue an image pull and the stack requests and exits 0, which the
claim forbids. -/
theorem endpoints_status_check_ineffective :
    wB.endpointsStatus = 500 ∧
    Req.pullImage 1 "registry.example.com/svc" "main-fedcba98" (some 5)
      ∈ (run cfgB wB).trace ∧
    Req.getStacks none ∈ (run cfgB wB).trace ∧
    (run cfgB wB).exit = 0 := by
  refine ⟨rfl, by decide, by decide, rfl⟩

theorem stack_reconcile_exactly_one_witness :
    countReq isUpdateReq (run cfgU wU).trace = 1 ∧
    countReq isCreateReq (run cfgU wU).trace = 0 ∧
    ∃ body, Req.updateStack 7 1 body ∈ (run cfgU wU).trace :=
  (stack_reconcile_exactly_one cfgU wU "0123456789abcdef" ⟨1, "prod"⟩
    rfl (by decide) rfl (by decide) (by decide) (by decide) rfl rfl).1
    ⟨7, "web"⟩ (by decide)

theorem release_tag_derivation_witness :
    "dev-01234567" = cfgU.branch ++ "-" ++ jsSubstr0 "0123456789abcdef" 8 :=
  ((release_tag_derivation cfgU wU).2 "0123456789abcdef" rfl (by decide)).1
    1 "registry.example.com/svc" "dev-01234567" (some 5) (by decide)

theorem prune_always_true_witness : wUBody.Prune = true :=
  (prune_always_true cfgU wU).2 7 1 wUBody (by decide)

theorem registry_auth_iff_private_host_witness :
    ((some 5 : Option Nat).isSome = true ↔
      imageHost "registry.example.com/svc" ≠ "docker.io") ∧
    ((none : Option Nat).isSome = true ↔
      imageHost "docker.io/app" ≠ "docker.io") :=
  ⟨(registry_auth_iff_private_host cfgU wU 1 "registry.example.com/svc"
      "dev-01234567" (some 5) (by decide)).1,
    (registry_auth_iff_private_host cfgU wU 1 "docker.io/app"
      "dev-01234567" none (by decide)).1⟩

theorem compose_env_order_witness :
    ∃ rt up, wUBody.Env =
      [⟨"RELEASE_TAG", rt⟩, ⟨"URL_PREFIX", up⟩,
        ⟨"STACK_NAME", cfgU.stackName⟩]
      ++ cfgU.additionalComposeEnv.map (fun p => ⟨p.1, p.2⟩) :=
  (compose_env_order cfgU wU).2 7 1 wUBody (by decide)

theorem url_prefix_value_witness :
    wUBody.Env[1]? = some ⟨"URL_PREFIX", cfgU.branch ++ "."⟩ :=
  ((url_prefix_value cfgU wU).2 7 1 wUBody (by decide)).2 (by decide)

theorem empty_images_skip_pull_witness :
    ∃ rest, (run cfgC wC).trace =
        Req.auth cfgC.portainerUsername cfgC.portainerPassword ::
          Req.getEndpoints :: rest ∧
      (rest.head? = some (Req.getSwarm 1) ∨
        rest.head? = some (Req.getStacks none)) :=
  (empty_images_skip_pull cfgC wC (Or.inl rfl)).2 "fedcba9876543210"
    ⟨1, "prod"⟩ rfl (by decide) rfl (by decide)

theorem raw_truthiness_semantics_witness :
    Req.getSwarm 1 ∉ (run cfgU wU).trace ∧ wUBody.PullImage = true :=
  ⟨((raw_truthiness_semantics cfgU wU).1 "false" rfl (by decide)).1 1,
    (raw_truthiness_semantics cfgU wU).2 "false" rfl (by decide) 7 1 wUBody
      (by decide)⟩

end DronePortainer
